import Mathlib

/-!
Verification of the medical-context assembly pipeline of the
cavista-quadcore backend (apps/records): the PDF text extractor
(RecordService._extract_pdf_text), document upload (RecordService.upload_document,
MedicalDocumentUploadView.post) and the AI context assembler
(RecordService.get_patient_medical_context), embedded shallowly.

Python strings are modelled by Lean String; slicing s[:n] is pyTake,
len is pyLen, str.strip is pyStrip over the ASCII whitespace class,
str.lower is pyLower. Database rows are lists already filtered to one
owner; the ORM order_by on the record_type CharField is string
(lexicographic) order, modelled by sortRecords. Dates are modelled by
their ISO string rendering (which orders like the calendar date).
-/

/-- Python len(s), counting characters. -/
def pyLen (s : String) : Nat := s.data.length

/-- Python s[:n], character slicing. -/
def pyTake (s : String) (n : Nat) : String := ⟨s.data.take n⟩

/-- Python ASCII whitespace class used by str.strip. -/
def isPySpace (c : Char) : Bool :=
  c = ' ' || c = '\t' || c = '\n' || c = '\x0d' || c = '\x0b' || c = '\x0c'

/-- Python s.strip(): drop leading and trailing whitespace. -/
def pyStrip (s : String) : String :=
  ⟨((s.data.dropWhile isPySpace).reverse.dropWhile isPySpace).reverse⟩

/-- Python s.lower(), ASCII case folding per character. -/
def pyLower (s : String) : String := ⟨s.data.map Char.toLower⟩

/-- A row of the MedicalRecord model (fields used by the service layer). -/
structure MedicalRecord where
  record_type : String
  title : String
  description : String
  date_recorded : Option String
  provider : String
  status : String
  severity : String
  data : List (String × String)
  is_deleted : Bool
deriving DecidableEq

/-- A row of the MedicalDocument model (fields used by the service layer). -/
structure MedicalDocument where
  original_filename : String
  document_type : String
  extracted_text : String
  file_size : Nat
  is_deleted : Bool
deriving DecidableEq

/-- Django get_record_type_display: label of a RecordType choice. -/
def get_record_type_display (rt : String) : String :=
  if rt = "CONDITION" then "Condition / Diagnosis"
  else if rt = "MEDICATION" then "Medication"
  else if rt = "ALLERGY" then "Allergy"
  else if rt = "PROCEDURE" then "Procedure"
  else if rt = "VITAL" then "Vital Sign"
  else if rt = "LAB_RESULT" then "Lab Result"
  else if rt = "IMMUNIZATION" then "Immunization"
  else if rt = "FAMILY_HISTORY" then "Family History"
  else if rt = "OTHER" then "Other"
  else rt

/-- Django get_document_type_display: label of a DocumentType choice. -/
def get_document_type_display (dt : String) : String :=
  if dt = "LAB_REPORT" then "Lab Report"
  else if dt = "DISCHARGE_SUMMARY" then "Discharge Summary"
  else if dt = "PRESCRIPTION" then "Prescription"
  else if dt = "IMAGING" then "Imaging Report"
  else if dt = "REFERRAL" then "Referral Letter"
  else if dt = "INSURANCE" then "Insurance Document"
  else if dt = "OTHER" then "Other"
  else dt

/-- Strict lexicographic order on character lists by code point: the
collation a SQL ORDER BY applies to a CharField. -/
def strLtB : List Char → List Char → Bool
  | [], [] => false
  | [], _ :: _ => true
  | _ :: _, [] => false
  | a :: as, b :: bs =>
      if a.toNat < b.toNat then true
      else if b.toNat < a.toNat then false
      else strLtB as bs

/-- SQL ORDER BY date_recorded DESC with absent dates last: a value sorts
no later than another when that other is no larger, and a NULL sorts after
every value. ISO date strings compare like the dates they render. The NULL
placement is database-dependent and the backend configuration is not part
of the source tree; absent-after-present follows the specification. -/
def dateLeB : Option String → Option String → Bool
  | some x, some y => decide (y ≤ x)
  | some _, none => true
  | none, some _ => false
  | none, none => true

/-- The key order of order_by(record_type, -date_recorded): record_type
ascending in string (lexicographic) order, then date descending with
NULL dates last. -/
def recLe (a b : MedicalRecord) : Prop :=
  strLtB a.record_type.data b.record_type.data = true ∨
    (a.record_type = b.record_type ∧ dateLeB a.date_recorded b.date_recorded = true)

instance : DecidableRel recLe := fun a b => by
  unfold recLe
  infer_instance

/-- The database sort performed by order_by(record_type, -date_recorded),
modelled as a stable sort under recLe. -/
def sortRecords (records : List MedicalRecord) : List MedicalRecord :=
  List.insertionSort recLe records

theorem charEqOfToNatEq {a b : Char} (h : a.toNat = b.toNat) : a = b := by
  have h1 : a.val.toNat = b.val.toNat := h
  have h2 : a.val = b.val := by
    first
      | exact UInt32.eq_of_toNat_eq h1
      | exact UInt32.toNat_inj.mp h1
      | exact UInt32.toNat_injective h1
      | (apply UInt32.ext; exact h1)
  exact Char.ext h2

theorem strLtB_cons_iff (a b : Char) (as bs : List Char) :
    strLtB (a :: as) (b :: bs) = true ↔
      a.toNat < b.toNat ∨ (a.toNat = b.toNat ∧ strLtB as bs = true) := by
  simp only [strLtB]
  split_ifs with h1 h2
  · simp [h1]
  · simp only [Bool.false_eq_true, false_iff]
    rintro (h | ⟨h, _⟩) <;> omega
  · have h3 : a.toNat = b.toNat := by omega
    simp [h3, h1]

theorem strLtB_trans :
    ∀ l m n : List Char, strLtB l m = true → strLtB m n = true → strLtB l n = true := by
  intro l
  induction l with
  | nil =>
    intro m n h1 h2
    cases m with
    | nil => simp [strLtB] at h1
    | cons b bs =>
      cases n with
      | nil => simp [strLtB] at h2
      | cons c cs => simp [strLtB]
  | cons a as ih =>
    intro m n h1 h2
    cases m with
    | nil => simp [strLtB] at h1
    | cons b bs =>
      cases n with
      | nil => simp [strLtB] at h2
      | cons c cs =>
        rw [strLtB_cons_iff] at h1 h2 ⊢
        rcases h1 with h1 | ⟨e1, h1⟩ <;> rcases h2 with h2 | ⟨e2, h2⟩
        · left; omega
        · left; omega
        · left; omega
        · exact Or.inr ⟨by omega, ih bs cs h1 h2⟩

theorem strLtB_total :
    ∀ l m : List Char, strLtB l m = true ∨ l = m ∨ strLtB m l = true := by
  intro l
  induction l with
  | nil =>
    intro m
    cases m with
    | nil => right; left; rfl
    | cons b bs => left; simp [strLtB]
  | cons a as ih =>
    intro m
    cases m with
    | nil => right; right; simp [strLtB]
    | cons b bs =>
      rcases Nat.lt_trichotomy a.toNat b.toNat with h | h | h
      · left
        rw [strLtB_cons_iff]
        exact Or.inl h
      · have hab : a = b := charEqOfToNatEq h
        rcases ih bs with h2 | h2 | h2
        · left
          rw [strLtB_cons_iff]
          exact Or.inr ⟨h, h2⟩
        · right; left; rw [hab, h2]
        · right; right
          rw [strLtB_cons_iff]
          exact Or.inr ⟨h.symm, h2⟩
      · right; right
        rw [strLtB_cons_iff]
        exact Or.inl h

theorem dateLeB_total :
    ∀ x y : Option String, dateLeB x y = true ∨ dateLeB y x = true := by
  intro x y
  cases x <;> cases y <;> simp [dateLeB]
  exact le_total _ _

theorem dateLeB_trans :
    ∀ x y z : Option String, dateLeB x y = true → dateLeB y z = true → dateLeB x z = true := by
  intro x y z
  cases x <;> cases y <;> cases z <;> simp [dateLeB]
  exact fun h1 h2 => le_trans h2 h1

instance : IsTotal MedicalRecord recLe := by
  constructor
  intro a b
  rcases strLtB_total a.record_type.data b.record_type.data with h | h | h
  · exact Or.inl (Or.inl h)
  · have heq : a.record_type = b.record_type := congrArg String.mk h
    rcases dateLeB_total a.date_recorded b.date_recorded with hd | hd
    · exact Or.inl (Or.inr ⟨heq, hd⟩)
    · exact Or.inr (Or.inr ⟨heq.symm, hd⟩)
  · exact Or.inr (Or.inl h)

instance : IsTrans MedicalRecord recLe := by
  constructor
  intro a b c hab hbc
  rcases hab with h1 | ⟨e1, d1⟩
  · rcases hbc with h2 | ⟨e2, d2⟩
    · exact Or.inl (strLtB_trans _ _ _ h1 h2)
    · exact Or.inl (by rw [← congrArg String.data e2]; exact h1)
  · rcases hbc with h2 | ⟨e2, d2⟩
    · exact Or.inl (by rw [congrArg String.data e1]; exact h2)
    · exact Or.inr ⟨e1.trans e2, dateLeB_trans _ _ _ d1 d2⟩

/-- The per-record summary line: title, optional status, optional severity,
optional date, exactly as accumulated in the source loop. -/
def recordLine (r : MedicalRecord) : String :=
  "- " ++ r.title
    ++ (if r.status ≠ "" then " (Status: " ++ r.status ++ ")" else "")
    ++ (if r.severity ≠ "" then " [Severity: " ++ r.severity ++ "]" else "")
    ++ (match r.date_recorded with
        | some d => " — " ++ d
        | none => "")

/-- The lines appended for one record after its (possible) heading:
the summary line, the Details line when description is non-empty
(description sliced to 500 characters), and one line per data key/value. -/
def recordEntry (r : MedicalRecord) : List String :=
  recordLine r
    :: ((if r.description ≠ "" then ["  Details: " ++ pyTake r.description 500] else [])
      ++ r.data.map (fun kv => "  " ++ kv.1 ++ ": " ++ kv.2))

/-- The record-section loop: cur is the running current_type (initially
none); a heading line is emitted whenever the record_type differs from it. -/
def recordSectionsAux : Option String → List MedicalRecord → List String
  | _, [] => []
  | cur, r :: rs =>
      (if cur ≠ some r.record_type
        then ["\n## " ++ get_record_type_display r.record_type] else [])
        ++ recordEntry r ++ recordSectionsAux (some r.record_type) rs

/-- All lines of the record section, for records in the given order. -/
def recordSections (records : List MedicalRecord) : List String :=
  recordSectionsAux none records

/-- The documents query of the assembler: active documents of the owner
(list given in the model Meta ordering, -created_at, most recent first),
excluding extracted_text equal to the empty string, sliced to 5. -/
def includedDocuments (documents : List MedicalDocument) : List MedicalDocument :=
  ((documents.filter (fun d => !d.is_deleted)).filter
    (fun d => d.extracted_text ≠ "")).take 5

/-- The document-section lines: a section heading when any document is
included, then per document a subheading and its extracted text sliced
to 2000 characters. -/
def docSections (documents : List MedicalDocument) : List String :=
  let included := includedDocuments documents
  if included.isEmpty then []
  else
    ("\n## Uploaded Medical Documents")
      :: included.flatMap (fun d =>
        ["\n### " ++ d.original_filename ++ " (" ++ get_document_type_display d.document_type ++ ")",
          pyTake d.extracted_text 2000])

/-- RecordService.get_patient_medical_context: sort the owner's active
records, return the empty string when there are none, otherwise join the
record-section and document-section lines with newlines and slice the
joined result to 10000 characters. -/
def get_patient_medical_context
    (records : List MedicalRecord) (documents : List MedicalDocument) : String :=
  let sorted := sortRecords (records.filter (fun r => !r.is_deleted))
  if sorted.isEmpty then ""
  else
    pyTake (String.intercalate "\n" (recordSections sorted ++ docSections documents)) 10000

/-- What PdfReader sees in the uploaded bytes: either the reader (or any
step of parsing) raises, or it yields the raw extract_text result of each
page in order. -/
inductive PdfParse where
  | corrupt (msg : String)
  | pages (ps : List String)
deriving DecidableEq

/-- The body of the try block of RecordService._extract_pdf_text: build
text_parts from pages whose raw text is truthy (non-empty), appending the
stripped text; join with a blank line; slice to 50000 characters. A raised
parse error propagates out of the body. -/
def extractBody : PdfParse → Except String String
  | .corrupt msg => .error msg
  | .pages ps =>
      .ok (pyTake (String.intercalate "\n\n"
        ((ps.filter (fun t => t ≠ "")).map pyStrip)) 50000)

/-- RecordService._extract_pdf_text: the try/except boundary — any error
of the body becomes the empty string (with a logged warning). -/
def extract_pdf_text (p : PdfParse) : String :=
  match extractBody p with
  | .ok s => s
  | .error _ => ""

/-- An uploaded file as the service sees it: declared name, byte size,
and what parsing its payload would produce. -/
structure UploadedFile where
  name : String
  size : Nat
  payload : PdfParse
deriving DecidableEq

/-- file.name.lower().endswith(".pdf") of RecordService.upload_document. -/
def endsWithPdf (name : String) : Bool :=
  ".pdf".data.isSuffixOf (pyLower name).data

/-- RecordService.upload_document: extract text when the lowered filename
ends in .pdf, then create the MedicalDocument row; always succeeds. -/
def upload_document (file : UploadedFile) (document_type : String) : MedicalDocument :=
  { original_filename := file.name
    document_type := document_type
    extracted_text := if endsWithPdf file.name then extract_pdf_text file.payload else ""
    file_size := file.size
    is_deleted := false }

/-- Outcome of MedicalDocumentUploadView.post. -/
inductive UploadResponse where
  | badRequest (error : String)
  | created (doc : MedicalDocument)
deriving DecidableEq

/-- MedicalDocumentUploadView.post: missing file and oversized file are
rejected with 400 before upload_document (and hence before extraction and
before the row is created) runs. -/
def uploadViewPost (file : Option UploadedFile) (document_type : String) : UploadResponse :=
  match file with
  | none => .badRequest "File is required."
  | some f =>
      if f.size > 20 * 1024 * 1024 then
        .badRequest "File must be smaller than 20MB."
      else
        .created (upload_document f document_type)

/-! ### Claim-side definitions (formalising the wording under test) -/

/-- The category order the specification asserts for C2: the declaration
order of the RecordType choice list. -/
def enumRank : String → Nat
  | "CONDITION" => 0
  | "MEDICATION" => 1
  | "ALLERGY" => 2
  | "PROCEDURE" => 3
  | "VITAL" => 4
  | "LAB_RESULT" => 5
  | "IMMUNIZATION" => 6
  | "FAMILY_HISTORY" => 7
  | _ => 8

/-- The extraction algorithm as the C6 wording orders its steps: strip
each page, skip pages that yield no text after stripping, join the
non-empty pages with a blank line, cap at 50000. -/
def extractClaimAlgorithm (ps : List String) : String :=
  pyTake (String.intercalate "\n\n" ((ps.map pyStrip).filter (fun t => t ≠ ""))) 50000

/-! ### Concrete fixtures -/

def medA : MedicalRecord := ⟨"MEDICATION", "A", "", none, "", "", "", [], false⟩
def allB : MedicalRecord := ⟨"ALLERGY", "B", "", none, "", "", "", [], false⟩
def medC : MedicalRecord := ⟨"MEDICATION", "C", "", none, "", "", "", [], false⟩
def recCond : MedicalRecord := ⟨"CONDITION", "c", "", none, "", "", "", [], false⟩
def recAll : MedicalRecord := ⟨"ALLERGY", "a", "", none, "", "", "", [], false⟩

def mkDoc (fn txt : String) : MedicalDocument := ⟨fn, "OTHER", txt, 0, false⟩

def sevenDocs : List MedicalDocument :=
  [mkDoc "f1.pdf" "T1", mkDoc "f2.pdf" "T2", mkDoc "f3.pdf" "T3", mkDoc "f4.pdf" "T4",
    mkDoc "f5.pdf" "T5", mkDoc "f6.pdf" "T6", mkDoc "f7.pdf" "T7"]

def wsDoc : MedicalDocument := mkDoc "ws.pdf" " "

def sixDocs : List MedicalDocument :=
  [wsDoc, mkDoc "e2.pdf" "E2", mkDoc "e3.pdf" "E3", mkDoc "e4.pdf" "E4",
    mkDoc "e5.pdf" "E5", mkDoc "e6.pdf" "E6"]

def bigDesc : String := ⟨List.replicate 501 'a'⟩
def bigRec : MedicalRecord := ⟨"OTHER", "t", bigDesc, none, "", "", "", [], false⟩
def bigText : String := ⟨List.replicate 2001 'b'⟩
def bigDoc : MedicalDocument := ⟨"f.pdf", "OTHER", bigText, 0, false⟩

def fBig : UploadedFile := ⟨"big.pdf", 20971521, PdfParse.pages []⟩
def fOk : UploadedFile := ⟨"ok.pdf", 20971520, PdfParse.pages []⟩

/-! ### Helper lemmas -/

theorem pyLen_pyTake (s : String) (n : Nat) : pyLen (pyTake s n) = min n (pyLen s) := by
  simp [pyLen, pyTake, List.length_take]

theorem mem_recordSectionsAux :
    ∀ (records : List MedicalRecord) (cur : Option String) (r : MedicalRecord),
      r ∈ records → ∀ s ∈ recordEntry r, s ∈ recordSectionsAux cur records := by
  intro records
  induction records with
  | nil =>
    intro cur r hr
    cases hr
  | cons hd tl ih =>
    intro cur r hr s hs
    simp only [recordSectionsAux]
    rcases List.mem_cons.mp hr with he | ht
    · subst he
      exact List.mem_append.mpr (Or.inl (List.mem_append.mpr (Or.inr hs)))
    · exact List.mem_append.mpr (Or.inr (ih (some hd.record_type) r ht s hs))

theorem mem_docSections_of_included :
    ∀ (documents : List MedicalDocument) (d : MedicalDocument),
      d ∈ includedDocuments documents →
        pyTake d.extracted_text 2000 ∈ docSections documents := by
  intro documents d hd
  have hne : (includedDocuments documents).isEmpty = false := by
    cases hc : (includedDocuments documents).isEmpty
    · rfl
    · rw [List.isEmpty_iff] at hc
      rw [hc] at hd
      cases hd
  simp only [docSections, hne, Bool.false_eq_true, if_false]
  refine List.mem_cons_of_mem _ ?_
  rw [List.mem_flatMap]
  exact ⟨d, hd, by simp⟩

/-- The heading detector used to count category headings: within the
record section, exactly the heading lines begin with a newline. -/
def isHeading (s : String) : Bool := s.data.head? == some '\n'

theorem isHeading_heading (s : String) : isHeading ("\n## " ++ s) = true := by
  unfold isHeading
  rw [String.data_append, show ("\n## ").data = ['\n', '#', '#', ' '] from rfl]
  rfl

theorem isHeading_recordLine (r : MedicalRecord) : isHeading (recordLine r) = false := by
  unfold isHeading recordLine
  rw [String.data_append, String.data_append, String.data_append, String.data_append,
    show ("- ").data = ['-', ' '] from rfl]
  simp

theorem isHeading_details (s : String) : isHeading ("  Details: " ++ s) = false := by
  unfold isHeading
  rw [String.data_append, show ("  Details: ").data =
    [' ', ' ', 'D', 'e', 't', 'a', 'i', 'l', 's', ':', ' '] from rfl]
  simp

theorem isHeading_dataLine (k v : String) : isHeading ("  " ++ k ++ ": " ++ v) = false := by
  unfold isHeading
  rw [String.data_append, String.data_append, String.data_append,
    show ("  ").data = [' ', ' '] from rfl]
  simp

theorem countP_isHeading_recordEntry (r : MedicalRecord) :
    (recordEntry r).countP isHeading = 0 := by
  rw [List.countP_eq_zero]
  intro s hs
  rcases List.mem_cons.mp hs with he | hs2
  · rw [he, isHeading_recordLine]
    simp
  · rcases List.mem_append.mp hs2 with h3 | h3
    · by_cases hd : r.description ≠ ""
      · rw [if_pos hd] at h3
        have h4 := List.mem_singleton.mp h3
        rw [h4, isHeading_details]
        simp
      · rw [if_neg hd] at h3
        cases h3
    · obtain ⟨kv, hkv, hv⟩ := List.mem_map.mp h3
      rw [← hv, isHeading_dataLine]
      simp

theorem countP_aux_destutter :
    ∀ (rs : List MedicalRecord) (t : String),
      (recordSectionsAux (some t) rs).countP isHeading + 1 =
        (List.destutter' (fun a b : String => a ≠ b) t
          (rs.map (fun r => r.record_type))).length := by
  intro rs
  induction rs with
  | nil =>
    intro t
    simp [recordSectionsAux, List.destutter']
  | cons r rs ih =>
    intro t
    simp only [recordSectionsAux, List.map_cons, List.destutter']
    by_cases ht : t = r.record_type
    · rw [if_neg (not_not_intro (congrArg some ht)), if_neg (not_not_intro ht)]
      simp only [List.nil_append, List.countP_append, countP_isHeading_recordEntry]
      rw [ht]
      have h5 := ih r.record_type
      omega
    · rw [if_pos (fun hc => ht (Option.some.inj hc)), if_pos ht]
      simp only [List.countP_append, countP_isHeading_recordEntry, List.length_cons,
        List.countP_cons, List.countP_nil, isHeading_heading, if_true]
      have h5 := ih r.record_type
      omega

/-! ### Claims -/

/-- C1: for every input, the assembled context is at most 10000 characters
long, and (when any active record exists) it is exactly the newline-join of
all emitted lines sliced to 10000 characters as the last step. -/
theorem context_length_le_10000 :
    ∀ (records : List MedicalRecord) (documents : List MedicalDocument),
      pyLen (get_patient_medical_context records documents) ≤ 10000 ∧
      (sortRecords (records.filter (fun r => !r.is_deleted)) ≠ [] →
        get_patient_medical_context records documents =
          pyTake (String.intercalate "\n"
            (recordSections (sortRecords (records.filter (fun r => !r.is_deleted)))
              ++ docSections documents)) 10000) := by
  intro records documents
  constructor
  · by_cases h : (sortRecords (records.filter (fun r => !r.is_deleted))).isEmpty
    · simp [get_patient_medical_context, h, pyLen]
    · simp only [get_patient_medical_context, h, if_false, Bool.false_eq_true]
      rw [pyLen_pyTake]
      exact min_le_left _ _
  · intro h
    have h2 : (sortRecords (records.filter (fun r => !r.is_deleted))).isEmpty = false := by
      simpa [List.isEmpty_iff] using h
    simp [get_patient_medical_context, h2]

theorem context_length_le_10000_witness :
    sortRecords ([medA].filter (fun r => !r.is_deleted)) ≠ [] ∧
      get_patient_medical_context [medA] [] =
        pyTake (String.intercalate "\n"
          (recordSections (sortRecords ([medA].filter (fun r => !r.is_deleted)))
            ++ docSections [])) 10000 :=
  ⟨by decide, (context_length_le_10000 [medA] []).2 (by decide)⟩

/-- C3: with no records, assembly returns the empty string no matter which
documents exist. -/
theorem empty_records_short_circuit :
    ∀ documents : List MedicalDocument, get_patient_medical_context [] documents = "" := by
  intro documents
  rfl

/-- C5: a parse failure is caught at the extractor boundary and becomes the
empty string, and a corrupt payload with a recognised .pdf suffix is still
stored as a document (with empty extracted text). -/
theorem extraction_failure_yields_empty :
    ∀ (name : String) (size : Nat) (msg document_type : String),
      extract_pdf_text (PdfParse.corrupt msg) = "" ∧
      (endsWithPdf name = true →
        upload_document ⟨name, size, PdfParse.corrupt msg⟩ document_type =
          { original_filename := name, document_type := document_type,
            extracted_text := "", file_size := size, is_deleted := false }) := by
  intro name size msg dt
  refine ⟨rfl, fun h => ?_⟩
  simp [upload_document, h, extract_pdf_text, extractBody]

theorem extraction_failure_yields_empty_witness :
    endsWithPdf "scan.pdf" = true ∧
      upload_document ⟨"scan.pdf", 100, PdfParse.corrupt "broken"⟩ "OTHER" =
        { original_filename := "scan.pdf", document_type := "OTHER",
          extracted_text := "", file_size := 100, is_deleted := false } :=
  ⟨by decide, (extraction_failure_yields_empty "scan.pdf" 100 "broken" "OTHER").2 (by decide)⟩

/-- C6 counterexample: the code filters pages on their raw text and strips
afterwards, so a whitespace-only page contributes an empty joined segment;
the claimed strip-then-skip algorithm drops that page entirely, and the
two disagree on the pages a, whitespace, b. -/
theorem extract_strip_order_counterexample :
    extract_pdf_text (PdfParse.pages ["a", " ", "b"]) = "a\n\n\n\nb" ∧
    extractClaimAlgorithm ["a", " ", "b"] = "a\n\nb" ∧
    extract_pdf_text (PdfParse.pages ["a", " ", "b"]) ≠
      extractClaimAlgorithm ["a", " ", "b"] :=
  ⟨by decide, by decide, by decide⟩

/-- C6 amended: the extractor skips pages whose raw text is empty, strips
the remaining pages (a page that becomes empty after stripping still
contributes an empty segment), joins with a blank line and caps at 50000
characters, so the result length is the minimum of 50000 and the joined
length — in particular exactly 50000 whenever the joined text exceeds it. -/
theorem extract_skip_raw_empty_then_strip_cap :
    ∀ ps : List String,
      extract_pdf_text (PdfParse.pages ps) =
        pyTake (String.intercalate "\n\n"
          ((ps.filter (fun t => t ≠ "")).map pyStrip)) 50000 ∧
      pyLen (extract_pdf_text (PdfParse.pages ps)) =
        min 50000 (pyLen (String.intercalate "\n\n"
          ((ps.filter (fun t => t ≠ "")).map pyStrip))) := by
  intro ps
  exact ⟨rfl, by simp [extract_pdf_text, extractBody, pyLen_pyTake]⟩

/-- C9: an upload of 20971521 bytes or more is rejected with 400 before
upload_document (hence before extraction and row creation) runs, while
exactly 20971520 bytes passes the size gate and is stored. -/
theorem upload_size_boundary :
    ∀ (f : UploadedFile) (document_type : String),
      (20971521 ≤ f.size →
        uploadViewPost (some f) document_type =
          .badRequest "File must be smaller than 20MB.") ∧
      (f.size = 20971520 →
        uploadViewPost (some f) document_type =
          .created (upload_document f document_type)) := by
  intro f dt
  constructor
  · intro h
    simp only [uploadViewPost]
    rw [if_pos (by omega)]
  · intro h
    simp only [uploadViewPost]
    rw [if_neg (by omega)]

theorem upload_size_boundary_witness :
    (20971521 ≤ fBig.size ∧
      uploadViewPost (some fBig) "OTHER" = .badRequest "File must be smaller than 20MB.") ∧
    (fOk.size = 20971520 ∧
      uploadViewPost (some fOk) "OTHER" = .created (upload_document fOk "OTHER")) :=
  ⟨⟨by decide, (upload_size_boundary fBig "OTHER").1 (by decide)⟩,
    ⟨rfl, (upload_size_boundary fOk "OTHER").2 rfl⟩⟩

/-- C2 counterexample: order_by on the record_type CharField sorts the
stored category strings, so a CONDITION record is placed after an ALLERGY
record, while the claimed enumeration order (CONDITION first) would keep
it first: the sorted output is not ordered by enumRank. -/
theorem sort_not_enum_order_counterexample :
    sortRecords [recCond, recAll] = [recAll, recCond] ∧
    ¬ List.Chain' (fun a b => enumRank a.record_type ≤ enumRank b.record_type)
        (sortRecords [recCond, recAll]) := by
  have h : sortRecords [recCond, recAll] = [recAll, recCond] := by decide
  refine ⟨h, ?_⟩
  rw [h]
  intro hch
  have h2 := (List.chain'_cons.mp hch).1
  have h3 : ¬ (enumRank recAll.record_type ≤ enumRank recCond.record_type) := by decide
  exact h3 h2

/-- C2 amended: the records fed to context assembly are sorted by category
alphabetically (lexicographic on the stored category string, recLe), not in
the enumeration order of the category list, and within equal categories by
occurrence date descending with absent dates after present ones; the output
is a permutation of the input and concretely ALLERGY precedes CONDITION. -/
theorem sort_by_category_string_then_date_desc :
    (∀ records : List MedicalRecord,
      List.Sorted recLe (sortRecords records) ∧ List.Perm (sortRecords records) records) ∧
    sortRecords [recCond, recAll] = [recAll, recCond] :=
  ⟨fun records =>
    ⟨List.sorted_insertionSort recLe records, List.perm_insertionSort recLe records⟩,
    by decide⟩

/-- C4: the document section includes at most the first 5 documents with
non-empty extracted text in the given (most-recent-first) order, each of
which has its text emitted; with the 7 documents of sevenDocs exactly the
first 5 are included and the texts of the last 2 never appear. -/
theorem document_cap_first_five :
    (∀ documents : List MedicalDocument, (includedDocuments documents).length ≤ 5) ∧
    (∀ (documents : List MedicalDocument) (d : MedicalDocument),
      d ∈ includedDocuments documents →
        pyTake d.extracted_text 2000 ∈ docSections documents) ∧
    includedDocuments sevenDocs = [mkDoc "f1.pdf" "T1", mkDoc "f2.pdf" "T2",
      mkDoc "f3.pdf" "T3", mkDoc "f4.pdf" "T4", mkDoc "f5.pdf" "T5"] ∧
    pyTake (mkDoc "f6.pdf" "T6").extracted_text 2000 ∉ docSections sevenDocs ∧
    pyTake (mkDoc "f7.pdf" "T7").extracted_text 2000 ∉ docSections sevenDocs := by
  refine ⟨?_, mem_docSections_of_included, by decide, by decide, by decide⟩
  intro documents
  exact List.length_take_le 5 _

theorem document_cap_first_five_witness :
    mkDoc "f1.pdf" "T1" ∈ includedDocuments sevenDocs ∧
      pyTake (mkDoc "f1.pdf" "T1").extracted_text 2000 ∈ docSections sevenDocs :=
  ⟨by decide, document_cap_first_five.2.1 sevenDocs (mkDoc "f1.pdf" "T1") (by decide)⟩

/-- C10: a document is filtered out of the document section only when its
extracted text is exactly the empty string; a whitespace-only text counts
as non-empty, occupies one of the 5 slots (pushing the sixth document out)
and is emitted into the output. -/
theorem document_exclusion_exact_empty :
    (∀ (documents : List MedicalDocument) (d : MedicalDocument),
      d ∈ includedDocuments documents → d.extracted_text ≠ "") ∧
    includedDocuments sixDocs = [wsDoc, mkDoc "e2.pdf" "E2", mkDoc "e3.pdf" "E3",
      mkDoc "e4.pdf" "E4", mkDoc "e5.pdf" "E5"] ∧
    mkDoc "e6.pdf" "E6" ∉ includedDocuments sixDocs ∧
    pyTake wsDoc.extracted_text 2000 ∈ docSections sixDocs := by
  refine ⟨?_, by decide, by decide, by decide⟩
  intro documents d hd
  have h1 : d ∈ (documents.filter (fun d => !d.is_deleted)).filter
      (fun d => d.extracted_text ≠ "") := List.mem_of_mem_take hd
  have h2 := List.of_mem_filter h1
  simpa using h2

theorem document_exclusion_exact_empty_witness :
    wsDoc ∈ includedDocuments sixDocs ∧ wsDoc.extracted_text ≠ "" :=
  ⟨by decide, document_exclusion_exact_empty.1 sixDocs wsDoc (by decide)⟩

/-- C7: a record description longer than 500 characters appears in the
record section as an indented line Details: plus exactly its first 500
characters, and an included document whose extracted text is longer than
2000 characters has exactly its first 2000 characters emitted into the
document section (the assembly-time cap, separate from the 50000 ingestion
cap). -/
theorem per_field_truncation :
    ∀ (r : MedicalRecord) (records : List MedicalRecord)
      (documents : List MedicalDocument) (d : MedicalDocument),
      (500 < pyLen r.description → r ∈ records →
        ("  Details: " ++ pyTake r.description 500) ∈ recordSections records ∧
          pyLen (pyTake r.description 500) = 500) ∧
      (2000 < pyLen d.extracted_text → d ∈ includedDocuments documents →
        pyTake d.extracted_text 2000 ∈ docSections documents ∧
          pyLen (pyTake d.extracted_text 2000) = 2000) := by
  intro r records documents d
  constructor
  · intro hlen hmem
    have hdesc : r.description ≠ "" := fun he => absurd (he ▸ hlen) (by decide)
    refine ⟨mem_recordSectionsAux records none r hmem _ ?_, ?_⟩
    · simp [recordEntry, hdesc]
    · rw [pyLen_pyTake]
      omega
  · intro hlen hmem
    refine ⟨mem_docSections_of_included documents d hmem, ?_⟩
    rw [pyLen_pyTake]
    omega

theorem per_field_truncation_witness :
    (500 < pyLen bigRec.description ∧ bigRec ∈ [bigRec] ∧
      ("  Details: " ++ pyTake bigRec.description 500) ∈ recordSections [bigRec] ∧
      pyLen (pyTake bigRec.description 500) = 500) ∧
    (2000 < pyLen bigDoc.extracted_text ∧ bigDoc ∈ includedDocuments [bigDoc] ∧
      pyTake bigDoc.extracted_text 2000 ∈ docSections [bigDoc] ∧
      pyLen (pyTake bigDoc.extracted_text 2000) = 2000) := by
  have h1 : 500 < pyLen bigRec.description := by
    have e1 : pyLen bigRec.description = 501 := by
      show (List.replicate 501 'a').length = 501
      simp only [List.length_replicate]
    omega
  have h2 : bigRec ∈ [bigRec] := List.mem_singleton.mpr rfl
  have h3 : 2000 < pyLen bigDoc.extracted_text := by
    have e3 : pyLen bigDoc.extracted_text = 2001 := by
      show (List.replicate 2001 'b').length = 2001
      simp only [List.length_replicate]
    omega
  have hne : bigDoc.extracted_text ≠ "" := by
    intro h
    have e4 : pyLen bigDoc.extracted_text = 0 := by
      rw [h]
      rfl
    rw [e4] at h3
    omega
  have h4 : bigDoc ∈ includedDocuments [bigDoc] := by
    have hstep : includedDocuments [bigDoc] = [bigDoc] := by
      simp only [includedDocuments, List.filter_cons, List.filter_nil]
      rw [if_pos (show (!bigDoc.is_deleted) = true from rfl), List.filter_cons,
        if_pos (by simpa using hne), List.filter_nil]
      rfl
    rw [hstep]
    exact List.mem_singleton.mpr rfl
  obtain ⟨ha, hb⟩ := per_field_truncation bigRec [bigRec] [bigDoc] bigDoc
  obtain ⟨ha1, ha2⟩ := ha h1 h2
  obtain ⟨hb1, hb2⟩ := hb h3 h4
  exact ⟨⟨h1, h2, ha1, ha2⟩, ⟨h3, h4, hb1, hb2⟩⟩

/-- C8: during record-section construction a category heading is emitted
exactly once per maximal contiguous run of equal categories in the given
record order (counted by the length of the adjacent-duplicate-free
contraction of the category sequence), and on the sequence MEDICATION A,
ALLERGY B, MEDICATION C the output interleaves a MEDICATION heading
before A, an ALLERGY heading before B and a second MEDICATION heading
before C. -/
theorem category_heading_per_run :
    (∀ records : List MedicalRecord,
      (recordSections records).countP isHeading =
        (List.destutter (fun a b : String => a ≠ b)
          (records.map (fun r => r.record_type))).length) ∧
    recordSections [medA, allB, medC] =
      ["\n## Medication", "- A", "\n## Allergy", "- B", "\n## Medication", "- C"] := by
  refine ⟨?_, by decide⟩
  intro records
  cases records with
  | nil => simp [recordSections, recordSectionsAux, List.destutter]
  | cons r rs =>
    simp only [recordSections, recordSectionsAux, List.map_cons, List.destutter]
    rw [if_pos (by simp)]
    simp only [List.countP_append, countP_isHeading_recordEntry, List.countP_cons,
      List.countP_nil, isHeading_heading, if_true]
    have h5 := countP_aux_destutter rs r.record_type
    omega
